import Mathlib

/-!
Verification of the Astra DB n8n connector (`AstraDbV1.execute`,
`GenericFunctions.ts`, `utilities.ts`) against its natural-language
specification.  JavaScript values are modelled by the inductive `JValue`;
fallible JavaScript code (functions that may `throw`) is modelled with
`Except String`.  Numbers are modelled by `Int`: every numeric literal
appearing in the validated option paths of this connector is integral,
and non-integral floats play no role in any property below.
-/

namespace AstraDb

/-- Model of a JavaScript runtime value: `null`, `undefined`, booleans,
(integral) numbers, strings, arrays, and plain objects with
insertion-ordered fields. -/
inductive JValue where
  | vNull : JValue
  | vUndefined : JValue
  | vBool : Bool → JValue
  | vNum : Int → JValue
  | vStr : String → JValue
  | vArr : List JValue → JValue
  | vObj : List (String × JValue) → JValue

namespace JValue

/-- First-match lookup in an insertion-ordered field list. -/
def lookupField : List (String × JValue) → String → Option JValue
  | [], _ => none
  | (k, v) :: rest, key => if k = key then some v else lookupField rest key

/-- JavaScript property assignment on a field list: overwrite in place if
the key exists, otherwise append (preserving insertion order). -/
def setFields : List (String × JValue) → String → JValue → List (String × JValue)
  | [], key, v => [(key, v)]
  | (k, w) :: rest, key, v =>
      if k = key then (k, v) :: rest else (k, w) :: setFields rest key v

/-- `obj[key] = v` on an object value (identity on non-objects, which the
code never does on the paths modelled here). -/
def setProp : JValue → String → JValue → JValue
  | vObj fs, key, v => vObj (setFields fs key v)
  | other, _, _ => other

/-- Property read that never throws: `undefined` for a missing key or a
non-object base.  Used where the source's static types guarantee an
object base. -/
def objGet : JValue → String → JValue
  | vObj fs, key => (lookupField fs key).getD vUndefined
  | _, _ => vUndefined

/-- JavaScript property access `base.key`: throws a `TypeError` when the
base is `null` or `undefined`, yields `undefined` for a missing key or a
primitive base, and looks the key up otherwise. -/
def getProp : JValue → String → Except String JValue
  | vNull, _ => .error "TypeError: Cannot read properties of null"
  | vUndefined, _ => .error "TypeError: Cannot read properties of undefined"
  | vObj fs, key => .ok ((lookupField fs key).getD vUndefined)
  | _, _ => .ok vUndefined

/-- Test for the `undefined` value (`x !== undefined` in the source). -/
def isUndef : JValue → Bool
  | vUndefined => true
  | _ => false

/-- JavaScript truthiness. -/
def truthy : JValue → Bool
  | vNull => false
  | vUndefined => false
  | vBool b => b
  | vNum n => n ≠ 0
  | vStr s => s ≠ ""
  | vArr _ => true
  | vObj _ => true

/-- Whitespace characters removed by `String.prototype.trim`. -/
def isWsChar (c : Char) : Bool :=
  c = ' ' ∨ c = '\t' ∨ c = '\n' ∨ c = '\r'

/-- `s.trim()`: strip leading and trailing whitespace. -/
def jsTrim (s : String) : String :=
  String.mk (((s.toList.dropWhile isWsChar).reverse.dropWhile isWsChar).reverse)

/-- `Number(s)` on a string: trimmed empty string is `0`, an optionally
signed run of digits is that integer, anything else is `NaN` (`none`).
(Float/hex syntax is not modelled; no claim exercises it.) -/
def strToNumber (s : String) : Option Int :=
  let t := jsTrim s
  if t = "" then some 0
  else
    let (sign, digits) :=
      match t.toList with
      | '-' :: rest => ((-1 : Int), rest)
      | '+' :: rest => ((1 : Int), rest)
      | cs => ((1 : Int), cs)
    if digits ≠ [] ∧ digits.all (fun c => c.isDigit) then
      some (sign * (digits.foldl (fun acc c => acc * 10 + (c.toNat - '0'.toNat)) 0 : Nat))
    else none

/-- `Number(v)`: JavaScript ToNumber, with `none` standing for `NaN`.
Object/array-to-primitive coercion is not modelled (`none`); no claim
exercises it. -/
def toNumber : JValue → Option Int
  | vNull => some 0
  | vUndefined => none
  | vBool b => some (if b then 1 else 0)
  | vNum n => some n
  | vStr s => strToNumber s
  | vArr _ => none
  | vObj _ => none

end JValue

/-! ### JSON.parse

Model of the host runtime's `JSON.parse` builtin, used by the handlers on
the `document`/`documents`/`filter`/`update`/`replacement` parameters and
by `parseAstraOptions` on string-valued `sort`/`projection`.  Fuel-indexed
recursive descent; integers only (see the header note on numbers). -/

/-- Drop leading JSON whitespace. -/
def skipWs : List Char → List Char
  | c :: rest =>
      if c = ' ' ∨ c = '\t' ∨ c = '\n' ∨ c = '\r' then skipWs rest else c :: rest
  | [] => []

/-- Parse the body of a JSON string literal after the opening quote,
handling the single-character escapes.  Returns the decoded string and
the input remaining after the closing quote. -/
def parseStringBody : List Char → Option (String × List Char)
  | [] => none
  | '"' :: rest => some ("", rest)
  | '\\' :: e :: rest => do
      let c ← match e with
        | '"' => some '"'
        | '\\' => some '\\'
        | '/' => some '/'
        | 'n' => some '\n'
        | 't' => some '\t'
        | 'r' => some '\r'
        | _ => none
      let (s, rem) ← parseStringBody rest
      return (String.mk (c :: s.toList), rem)
  | '\\' :: [] => none
  | c :: rest => do
      let (s, rem) ← parseStringBody rest
      return (String.mk (c :: s.toList), rem)

/-- Parse a run of decimal digits into a natural number. -/
def parseDigits (cs : List Char) : Option (Nat × List Char) :=
  let digits := cs.takeWhile (fun c => c.isDigit)
  if digits = [] then none
  else some (digits.foldl (fun acc c => acc * 10 + (c.toNat - '0'.toNat)) 0,
             cs.dropWhile (fun c => c.isDigit))

mutual

/-- Parse one JSON value. -/
def parseVal : Nat → List Char → Option (JValue × List Char)
  | 0, _ => none
  | fuel + 1, cs =>
      match skipWs cs with
      | 'n' :: 'u' :: 'l' :: 'l' :: rest => some (.vNull, rest)
      | 't' :: 'r' :: 'u' :: 'e' :: rest => some (.vBool true, rest)
      | 'f' :: 'a' :: 'l' :: 's' :: 'e' :: rest => some (.vBool false, rest)
      | '"' :: rest => do
          let (s, rem) ← parseStringBody rest
          return (.vStr s, rem)
      | '-' :: rest => do
          let (n, rem) ← parseDigits rest
          return (.vNum (-(n : Int)), rem)
      | '[' :: rest =>
          (match skipWs rest with
           | ']' :: rem => some (.vArr [], rem)
           | _ => do
               let (elems, rem) ← parseElems fuel rest
               return (.vArr elems, rem))
      | '{' :: rest =>
          (match skipWs rest with
           | '}' :: rem => some (.vObj [], rem)
           | _ => do
               let (fields, rem) ← parseMembers fuel rest
               return (.vObj fields, rem))
      | c :: rest =>
          if c.isDigit then do
            let (n, rem) ← parseDigits (c :: rest)
            return (.vNum (n : Int), rem)
          else none
      | [] => none

/-- Parse comma-separated array elements up to the closing bracket. -/
def parseElems : Nat → List Char → Option (List JValue × List Char)
  | 0, _ => none
  | fuel + 1, cs => do
      let (v, rem) ← parseVal fuel cs
      match skipWs rem with
      | ',' :: rest => do
          let (vs, rem2) ← parseElems fuel rest
          return (v :: vs, rem2)
      | ']' :: rest => some ([v], rest)
      | _ => none

/-- Parse comma-separated object members up to the closing brace. -/
def parseMembers : Nat → List Char → Option (List (String × JValue) × List Char)
  | 0, _ => none
  | fuel + 1, cs => do
      match skipWs cs with
      | '"' :: rest => do
          let (key, rem) ← parseStringBody rest
          match skipWs rem with
          | ':' :: rest2 => do
              let (v, rem2) ← parseVal fuel rest2
              match skipWs rem2 with
              | ',' :: rest3 => do
                  let (fields, rem3) ← parseMembers fuel rest3
                  return ((key, v) :: fields, rem3)
              | '}' :: rest3 => some ([(key, v)], rest3)
              | _ => none
          | _ => none
      | _ => none

end

/-- `JSON.parse`: parse the whole string as one JSON value, rejecting
trailing garbage.  A `SyntaxError` is modelled by the error string. -/
def jsonParse (s : String) : Except String JValue :=
  match parseVal (s.length + 1) s.toList with
  | some (v, rem) =>
      if skipWs rem = [] then .ok v else .error "SyntaxError: Unexpected token in JSON"
  | none => .error "SyntaxError: Unexpected token in JSON"

/-! ### GenericFunctions.ts -/

open JValue

/-- Result shape returned by `validateQuery` in the source: an `isValid`
flag and a list of error strings (the source returns no other fields). -/
structure ValidationResult where
  isValid : Bool
  errors : List String
deriving DecidableEq, Repr

/-- `validateQuery(node, query, fieldName)`: rejects `null`/`undefined`,
non-objects, and arrays; accepts every other object. -/
def validateQuery (query : JValue) (fieldName : String) : ValidationResult :=
  match query with
  | .vNull => ⟨false, [fieldName ++ " cannot be null or undefined"]⟩
  | .vUndefined => ⟨false, [fieldName ++ " cannot be null or undefined"]⟩
  | .vObj _ => ⟨true, []⟩
  | .vArr _ => ⟨false, [fieldName ++ " cannot be an array"]⟩
  | _ => ⟨false, [fieldName ++ " must be an object"]⟩

/-- ASCII letter test for the identifier regular expression. -/
def isAsciiLetter (c : Char) : Bool :=
  ('A' ≤ c ∧ c ≤ 'Z') ∨ ('a' ≤ c ∧ c ≤ 'z')

/-- Test for `^[a-zA-Z][a-zA-Z0-9_]*$`. -/
def matchesIdentifierRegex (s : String) : Bool :=
  match s.toList with
  | [] => false
  | c :: rest =>
      isAsciiLetter c ∧
        rest.all (fun d => isAsciiLetter d ∨ d.isDigit ∨ d = '_')

/-- `validateKeyspaceCollectionName(node, name, type)`: fails on a falsy
name, on a name that trims to empty, and on a name failing the
identifier regular expression; passes everything else. -/
def validateKeyspaceCollectionName (name : String) (type_ : String) :
    Except String Unit :=
  if name = "" then
    .error ("Astra DB " ++ type_ ++ " name is required")
  else
    let trimmedName := JValue.jsTrim name
    if trimmedName = "" then
      .error ("Astra DB " ++ type_ ++ " name cannot be empty")
    else if ¬ matchesIdentifierRegex trimmedName then
      .error ("Invalid " ++ type_ ++
        " name. Must start with a letter and contain only letters, numbers, and underscores")
    else
      .ok ()

/-- `parseAstraOptions(node, options)`: builds the typed options object,
rejecting a `NaN` or negative `limit`/`skip`, JSON-parsing string-valued
`sort`/`projection`, coercing `upsert` to boolean, and passing a truthy
`returnDocument` through. -/
def parseAstraOptions (options : JValue) : Except String JValue := do
  let result : JValue := .vObj []
  let limitRaw ← getProp options "limit"
  let result ←
    if ¬ isUndef limitRaw then
      match toNumber limitRaw with
      | none => Except.error "Limit must be a non-negative number"
      | some limit =>
          if limit < 0 then Except.error "Limit must be a non-negative number"
          else pure (setProp result "limit" (.vNum limit))
    else pure result
  let skipRaw ← getProp options "skip"
  let result ←
    if ¬ isUndef skipRaw then
      match toNumber skipRaw with
      | none => Except.error "Skip must be a non-negative number"
      | some skip =>
          if skip < 0 then Except.error "Skip must be a non-negative number"
          else pure (setProp result "skip" (.vNum skip))
    else pure result
  let sortRaw ← getProp options "sort"
  let result ←
    if truthy sortRaw then
      match sortRaw with
      | .vStr s =>
          match jsonParse s with
          | .error _ => Except.error "Invalid sort format. Must be valid JSON"
          | .ok v => pure (setProp result "sort" v)
      | v => pure (setProp result "sort" v)
    else pure result
  let projRaw ← getProp options "projection"
  let result ←
    if truthy projRaw then
      match projRaw with
      | .vStr s =>
          match jsonParse s with
          | .error _ => Except.error "Invalid projection format. Must be valid JSON"
          | .ok v => pure (setProp result "projection" v)
      | v => pure (setProp result "projection" v)
    else pure result
  let upsertRaw ← getProp options "upsert"
  let result :=
    if ¬ isUndef upsertRaw then setProp result "upsert" (.vBool (truthy upsertRaw))
    else result
  let rdRaw ← getProp options "returnDocument"
  let result :=
    if truthy rdRaw then setProp result "returnDocument" rdRaw else result
  return result

/-- `formatAstraResponse(result, operation)`: the normalized envelope
`{operation, success: true, data, ...operation-specific fields}`.  The
operation-specific field copies read properties off `result`, which (as
in JavaScript) throws when `result` is `null`/`undefined`. -/
def formatAstraResponse (result : JValue) (operation : String) :
    Except String JValue :=
  let response : JValue := .vObj
    [("operation", .vStr operation), ("success", .vBool true), ("data", result)]
  match operation with
  | "insertOne" =>
      match getProp result "insertedId", getProp result "acknowledged" with
      | .error e, _ => .error e
      | _, .error e => .error e
      | .ok iid, .ok ack =>
          .ok (setProp (setProp response "insertedId" iid) "acknowledged" ack)
  | "insertMany" =>
      match getProp result "insertedIds", getProp result "insertedCount",
            getProp result "acknowledged" with
      | .error e, _, _ => .error e
      | _, .error e, _ => .error e
      | _, _, .error e => .error e
      | .ok iids, .ok cnt, .ok ack =>
          .ok (setProp (setProp (setProp response "insertedIds" iids)
            "insertedCount" cnt) "acknowledged" ack)
  | "updateMany" =>
      match getProp result "matchedCount", getProp result "modifiedCount",
            getProp result "acknowledged" with
      | .error e, _, _ => .error e
      | _, .error e, _ => .error e
      | _, _, .error e => .error e
      | .ok mat, .ok mods, .ok ack =>
          .ok (setProp (setProp (setProp response "matchedCount" mat)
            "modifiedCount" mods) "acknowledged" ack)
  | "delete" =>
      match getProp result "deletedCount", getProp result "acknowledged" with
      | .error e, _ => .error e
      | _, .error e => .error e
      | .ok del, .ok ack =>
          .ok (setProp (setProp response "deletedCount" del) "acknowledged" ack)
  | "findMany" => .ok (setProp response "data" result)
  | "findOne" => .ok (setProp response "document" result)
  | "findAndUpdate" => .ok (setProp response "document" result)
  | "findAndReplace" => .ok (setProp response "document" result)
  | "findAndDelete" => .ok (setProp response "document" result)
  | "estimatedDocumentCount" => .ok (setProp response "count" result)
  | _ => .ok response

/-- `sanitizeInput(data)`: `{}` for `null`/`undefined`, the value itself
for a non-array object, and `{data}` wrapping for everything else.  (No
transformation of string contents takes place.) -/
def sanitizeInput (data : JValue) : JValue :=
  match data with
  | .vNull => .vObj []
  | .vUndefined => .vObj []
  | .vObj fs => .vObj fs
  | other => .vObj [("data", other)]

/-! ### utilities.ts -/

/-- One paired-item link `{item, input}` as produced by
`generatePairedItemData`. -/
structure PairedItem where
  item : Nat
  input : Nat
deriving DecidableEq, Repr

/-- `generatePairedItemData(length, inputIndex)`. -/
def generatePairedItemData (length : Nat) (inputIndex : Nat) : List PairedItem :=
  (List.range length).map (fun index => ⟨index, inputIndex⟩)

/-! ### The database client (external collaborator)

The `@datastax/astra-db-ts` collection object is a black box.  A
`ClientCall` records one method invocation with its arguments; a
`Client` maps each call to the value the awaited call produces (`.error`
for a rejected promise). -/

/-- One invocation of a collection method of the database client. -/
inductive ClientCall where
  | insertOne (document : JValue)
  | insertMany (documents : JValue) (options : JValue)
  | find (filter : JValue) (options : JValue)
  | findOne (filter : JValue) (options : JValue)
  | updateMany (filter : JValue) (update : JValue) (options : JValue)
  | deleteMany (filter : JValue)
  | findOneAndUpdate (filter : JValue) (update : JValue) (options : JValue)
  | findOneAndReplace (filter : JValue) (replacement : JValue) (options : JValue)
  | findOneAndDelete (filter : JValue) (options : JValue)
  | estimatedDocumentCount (options : JValue)

/-- Behaviour of the database client: the outcome of each call. -/
def Client : Type := ClientCall → Except String JValue

/-! ### Operation wrappers (GenericFunctions.ts)

Each wrapper issues one client call, formats the result, and rewraps any
failure (client rejection or formatter throw, both inside the source's
`try` block) with its operation-specific message prefix.  The wrapper
returns the call it issued alongside the outcome, so that theorems can
speak about which calls reach the database. -/

/-- Shared shape of the ten wrappers. -/
def wrapCall (client : Client) (call : ClientCall) (tag : String)
    (errPre : String) : ClientCall × Except String JValue :=
  (call,
    match client call with
    | .error e => .error (errPre ++ e)
    | .ok raw =>
        match formatAstraResponse raw tag with
        | .error e => .error (errPre ++ e)
        | .ok env => .ok env)

/-- `insertOneDocument`. -/
def insertOneDocument (client : Client) (document : JValue) :
    ClientCall × Except String JValue :=
  wrapCall client (.insertOne document) "insertOne" "Failed to insert document: "

/-- `insertManyDocuments`. -/
def insertManyDocuments (client : Client) (documents options : JValue) :
    ClientCall × Except String JValue :=
  wrapCall client (.insertMany documents options) "insertMany"
    "Failed to insert documents: "

/-- `updateDocuments`. -/
def updateDocuments (client : Client) (filter update options : JValue) :
    ClientCall × Except String JValue :=
  wrapCall client (.updateMany filter update options) "updateMany"
    "Failed to update documents: "

/-- `deleteDocuments`. -/
def deleteDocuments (client : Client) (filter : JValue) :
    ClientCall × Except String JValue :=
  wrapCall client (.deleteMany filter) "delete" "Failed to delete documents: "

/-- `findDocuments`. -/
def findDocuments (client : Client) (filter options : JValue) :
    ClientCall × Except String JValue :=
  wrapCall client (.find filter options) "findMany" "Failed to find documents: "

/-- `findOneDocument`. -/
def findOneDocument (client : Client) (filter options : JValue) :
    ClientCall × Except String JValue :=
  wrapCall client (.findOne filter options) "findOne" "Failed to find document: "

/-- `findAndUpdateDocument`. -/
def findAndUpdateDocument (client : Client) (filter update options : JValue) :
    ClientCall × Except String JValue :=
  wrapCall client (.findOneAndUpdate filter update options) "findAndUpdate"
    "Failed to find and update document: "

/-- `findAndReplaceDocument`. -/
def findAndReplaceDocument (client : Client) (filter replacement options : JValue) :
    ClientCall × Except String JValue :=
  wrapCall client (.findOneAndReplace filter replacement options) "findAndReplace"
    "Failed to find and replace document: "

/-- `findAndDeleteDocument`. -/
def findAndDeleteDocument (client : Client) (filter options : JValue) :
    ClientCall × Except String JValue :=
  wrapCall client (.findOneAndDelete filter options) "findAndDelete"
    "Failed to find and delete document: "

/-- `estimatedDocumentCountCall` (the wrapper named
`estimatedDocumentCount` in the source). -/
def estimatedDocumentCountCall (client : Client) (options : JValue) :
    ClientCall × Except String JValue :=
  wrapCall client (.estimatedDocumentCount options) "estimatedDocumentCount"
    "Failed to get document count: "

/-! ### Per-item handlers (AstraDbV1.node.ts)

One input item's node parameters: raw JSON strings for
`document`/`documents`/`filter`/`update`/`replacement` (the source
applies `JSON.parse` to each) and the already-structured `options`
collection.  Each handler returns the (possibly empty) list of client
calls it issued together with its outcome. -/

structure ExecItem where
  document : String := "{}"
  documents : String := "[]"
  filter : String := "{}"
  update : String := "{}"
  replacement : String := "{}"
  options : JValue := .vObj []

/-- `Invalid <field>: <joined errors>` as thrown by the handlers. -/
def invalidMsg (field : String) (v : ValidationResult) : String :=
  "Invalid " ++ field ++ ": " ++ String.intercalate ", " v.errors

/-- `handleInsertOne`. -/
def handleInsertOne (client : Client) (it : ExecItem) :
    List ClientCall × Except String JValue :=
  match jsonParse it.document with
  | .error e => ([], .error e)
  | .ok document =>
      let (call, res) := insertOneDocument client document
      ([call], res)

/-- `handleInsertMany`. -/
def handleInsertMany (client : Client) (it : ExecItem) :
    List ClientCall × Except String JValue :=
  match jsonParse it.documents with
  | .error e => ([], .error e)
  | .ok documents =>
      match parseAstraOptions it.options with
      | .error e => ([], .error e)
      | .ok options =>
          let (call, res) := insertManyDocuments client documents options
          ([call], res)

/-- `handleFindMany`. -/
def handleFindMany (client : Client) (it : ExecItem) :
    List ClientCall × Except String JValue :=
  match jsonParse it.filter with
  | .error e => ([], .error e)
  | .ok filter =>
      match parseAstraOptions it.options with
      | .error e => ([], .error e)
      | .ok options =>
          let validation := validateQuery filter "filter"
          if validation.isValid then
            let (call, res) := findDocuments client filter options
            ([call], res)
          else ([], .error (invalidMsg "filter" validation))

/-- `handleFindOne` (note the `result || {}` on the wrapper's result). -/
def handleFindOne (client : Client) (it : ExecItem) :
    List ClientCall × Except String JValue :=
  match jsonParse it.filter with
  | .error e => ([], .error e)
  | .ok filter =>
      match parseAstraOptions it.options with
      | .error e => ([], .error e)
      | .ok options =>
          let validation := validateQuery filter "filter"
          if validation.isValid then
            let (call, res) := findOneDocument client filter options
            ([call],
              match res with
              | .error e => .error e
              | .ok r => .ok (if truthy r then r else .vObj []))
          else ([], .error (invalidMsg "filter" validation))

/-- `handleUpdateMany`. -/
def handleUpdateMany (client : Client) (it : ExecItem) :
    List ClientCall × Except String JValue :=
  match jsonParse it.filter with
  | .error e => ([], .error e)
  | .ok filter =>
      match jsonParse it.update with
      | .error e => ([], .error e)
      | .ok update =>
          match parseAstraOptions it.options with
          | .error e => ([], .error e)
          | .ok options =>
              let fv := validateQuery filter "filter"
              if fv.isValid then
                let uv := validateQuery update "update"
                if uv.isValid then
                  let (call, res) := updateDocuments client filter update options
                  ([call], res)
                else ([], .error (invalidMsg "update" uv))
              else ([], .error (invalidMsg "filter" fv))

/-- `handleDelete` (no options parameter in the source). -/
def handleDelete (client : Client) (it : ExecItem) :
    List ClientCall × Except String JValue :=
  match jsonParse it.filter with
  | .error e => ([], .error e)
  | .ok filter =>
      let validation := validateQuery filter "filter"
      if validation.isValid then
        let (call, res) := deleteDocuments client filter
        ([call], res)
      else ([], .error (invalidMsg "filter" validation))

/-- `handleFindAndUpdate`. -/
def handleFindAndUpdate (client : Client) (it : ExecItem) :
    List ClientCall × Except String JValue :=
  match jsonParse it.filter with
  | .error e => ([], .error e)
  | .ok filter =>
      match jsonParse it.update with
      | .error e => ([], .error e)
      | .ok update =>
          match parseAstraOptions it.options with
          | .error e => ([], .error e)
          | .ok options =>
              let fv := validateQuery filter "filter"
              if fv.isValid then
                let uv := validateQuery update "update"
                if uv.isValid then
                  let (call, res) := findAndUpdateDocument client filter update options
                  ([call], res)
                else ([], .error (invalidMsg "update" uv))
              else ([], .error (invalidMsg "filter" fv))

/-- `handleFindAndReplace`. -/
def handleFindAndReplace (client : Client) (it : ExecItem) :
    List ClientCall × Except String JValue :=
  match jsonParse it.filter with
  | .error e => ([], .error e)
  | .ok filter =>
      match jsonParse it.replacement with
      | .error e => ([], .error e)
      | .ok replacement =>
          match parseAstraOptions it.options with
          | .error e => ([], .error e)
          | .ok options =>
              let fv := validateQuery filter "filter"
              if fv.isValid then
                let rv := validateQuery replacement "replacement"
                if rv.isValid then
                  let (call, res) := findAndReplaceDocument client filter replacement options
                  ([call], res)
                else ([], .error (invalidMsg "replacement" rv))
              else ([], .error (invalidMsg "filter" fv))

/-- `handleFindAndDelete`. -/
def handleFindAndDelete (client : Client) (it : ExecItem) :
    List ClientCall × Except String JValue :=
  match jsonParse it.filter with
  | .error e => ([], .error e)
  | .ok filter =>
      match parseAstraOptions it.options with
      | .error e => ([], .error e)
      | .ok options =>
          let validation := validateQuery filter "filter"
          if validation.isValid then
            let (call, res) := findAndDeleteDocument client filter options
            ([call], res)
          else ([], .error (invalidMsg "filter" validation))

/-- `handleEstimatedDocumentCount`. -/
def handleEstimatedDocumentCount (client : Client) (it : ExecItem) :
    List ClientCall × Except String JValue :=
  match parseAstraOptions it.options with
  | .error e => ([], .error e)
  | .ok options =>
      let (call, res) := estimatedDocumentCountCall client options
      ([call], res)

/-- The `switch (operation)` dispatch of `AstraDbV1.execute`. -/
def processItem (client : Client) (operation : String) (it : ExecItem) :
    List ClientCall × Except String JValue :=
  match operation with
  | "insertOne" => handleInsertOne client it
  | "insertMany" => handleInsertMany client it
  | "findMany" => handleFindMany client it
  | "findOne" => handleFindOne client it
  | "updateMany" => handleUpdateMany client it
  | "delete" => handleDelete client it
  | "findAndUpdate" => handleFindAndUpdate client it
  | "findAndReplace" => handleFindAndReplace client it
  | "findAndDelete" => handleFindAndDelete client it
  | "estimatedDocumentCount" => handleEstimatedDocumentCount client it
  | _ => ([], .error ("Unknown operation: " ++ operation))

/-! ### The per-item result handling and the dispatch loop -/

/-- One output record `{json, pairedItem}`. -/
structure OutRecord where
  json : JValue
  pairedItem : PairedItem

/-- The result-handling block after the `switch`: for `findMany`, read
`result.documents || result` and fan out when it is an array, otherwise
push one sanitized record; for every other operation push one record
wrapping the result in `formatAstraResponse` again. -/
def successOutputs (operation : String) (result : JValue) (pi : PairedItem) :
    Except String (List OutRecord) :=
  if operation = "findMany" then
    match JValue.getProp result "documents" with
    | .error e => .error e
    | .ok d =>
        let documents := if truthy d then d else result
        match documents with
        | .vArr docs => .ok (docs.map (fun doc => ⟨sanitizeInput doc, pi⟩))
        | other => .ok [⟨sanitizeInput other, pi⟩]
  else
    match formatAstraResponse result operation with
    | .error e => .error e
    | .ok env => .ok [⟨env, pi⟩]

/-- Everything inside the per-item `try` block: handler dispatch followed
by result handling. -/
def itemOutcome (client : Client) (operation : String) (pi : PairedItem)
    (it : ExecItem) : Except String (List OutRecord) :=
  match (processItem client operation it).snd with
  | .error e => .error e
  | .ok result => successOutputs operation result pi

/-- The per-item loop of `AstraDbV1.execute` with its per-item `catch`:
on failure with continue-on-fail, push `{error}` paired to the item and
continue; without continue-on-fail, rethrow. -/
def executeItems (cof : Bool) (client : Client) (operation : String)
    (fallback : List PairedItem) : List ExecItem → Nat → Except String (List OutRecord)
  | [], _ => .ok []
  | it :: rest, i =>
      match itemOutcome client operation (fallback.getD i ⟨0, 0⟩) it with
      | .ok outs =>
          (executeItems cof client operation fallback rest (i + 1)).map
            (fun tail => outs ++ tail)
      | .error e =>
          if cof then
            (executeItems cof client operation fallback rest (i + 1)).map
              (fun tail => ⟨.vObj [("error", .vStr e)], fallback.getD i ⟨0, 0⟩⟩ :: tail)
          else .error e

/-- `AstraDbV1.execute`: validate the keyspace and collection names, run
the per-item loop with `fallbackPairedItems = generatePairedItemData
(items.length, 0)`, and apply the outer `catch` (with continue-on-fail,
a single error record paired `{item: 0}`; otherwise rethrow). -/
def execute (cof : Bool) (client : Client) (operation keyspace collection : String)
    (items : List ExecItem) : Except String (List OutRecord) :=
  let body : Except String (List OutRecord) :=
    match validateKeyspaceCollectionName keyspace "keyspace" with
    | .error e => .error e
    | .ok _ =>
        match validateKeyspaceCollectionName collection "collection" with
        | .error e => .error e
        | .ok _ =>
            executeItems cof client operation
              (generatePairedItemData items.length 0) items 0
  match body with
  | .ok outs => .ok outs
  | .error e =>
      if cof then .ok [⟨.vObj [("error", .vStr e)], ⟨0, 0⟩⟩] else .error e

/-! ### Local validation predicate

`localValidationOk op it` holds exactly when every local validation step
of the handler for `op` (JSON parameter parsing, option parsing, query
validation) succeeds on item `it` — mirroring, per operation, the checks
the corresponding handler performs before its database call. -/

/-- Success of `jsonParse` as a boolean. -/
def parsedOk (r : Except String JValue) : Bool :=
  match r with
  | .ok _ => true
  | .error _ => false

/-- All local validation steps of the handler for `operation` succeed on
item `it`. -/
def localValidationOk (operation : String) (it : ExecItem) : Bool :=
  match operation with
  | "insertOne" => parsedOk (jsonParse it.document)
  | "insertMany" =>
      parsedOk (jsonParse it.documents) && parsedOk (parseAstraOptions it.options)
  | "findMany" | "findOne" | "findAndDelete" =>
      match jsonParse it.filter with
      | .error _ => false
      | .ok filter =>
          parsedOk (parseAstraOptions it.options) && (validateQuery filter "filter").isValid
  | "updateMany" | "findAndUpdate" =>
      match jsonParse it.filter, jsonParse it.update with
      | .ok filter, .ok update =>
          parsedOk (parseAstraOptions it.options) &&
            (validateQuery filter "filter").isValid &&
            (validateQuery update "update").isValid
      | _, _ => false
  | "findAndReplace" =>
      match jsonParse it.filter, jsonParse it.replacement with
      | .ok filter, .ok replacement =>
          parsedOk (parseAstraOptions it.options) &&
            (validateQuery filter "filter").isValid &&
            (validateQuery replacement "replacement").isValid
      | _, _ => false
  | "delete" =>
      match jsonParse it.filter with
      | .error _ => false
      | .ok filter => (validateQuery filter "filter").isValid
  | "estimatedDocumentCount" => parsedOk (parseAstraOptions it.options)
  | _ => false

/-! ### Concrete fixtures used by the theorems below -/

/-- An item with all parameters at their defaults (`{}` filters). -/
def defaultItem : ExecItem := {}

/-- An item whose `filter` parameter is the JSON text `null`, which
parses but fails query validation. -/
def badFilterItem : ExecItem := { filter := "null" }

/-- The validation error raised for `badFilterItem`. -/
def badFilterMsg : String := "Invalid filter: filter cannot be null or undefined"

/-- A client that rejects every call (never reached in the situations it
is used for). -/
def cofClient : Client := fun _ => .error "unexpected call"

/-- A client whose `findOne` resolves to `null` (filter matches zero
documents) and which rejects any other call. -/
def nullFindOneClient : Client := fun call =>
  match call with
  | .findOne _ _ => .ok .vNull
  | _ => .error "unexpected call"

/-- A client whose `find` resolves to an array of two documents. -/
def twoDocsClient : Client := fun call =>
  match call with
  | .find _ _ => .ok (.vArr [.vObj [("a", .vNum 1)], .vObj [("b", .vNum 2)]])
  | _ => .error "unexpected call"

/-- The `findMany` envelope produced by `findDocuments` for
`twoDocsClient`'s two-document result. -/
def twoDocsEnvelope : JValue :=
  .vObj [("operation", .vStr "findMany"), ("success", .vBool true),
    ("data", .vArr [.vObj [("a", .vNum 1)], .vObj [("b", .vNum 2)]])]

/-- `formatAstraResponse(null, 'findOne')`: the inner envelope produced
by `findOneDocument` when the client's `findOne` returns `null`. -/
def findOneNullInner : JValue :=
  .vObj [("operation", .vStr "findOne"), ("success", .vBool true),
    ("data", .vNull), ("document", .vNull)]

/-- The record body `execute` emits for such an item: the inner envelope
wrapped by `formatAstraResponse` a second time in the result-handling
block. -/
def findOneNullJson : JValue :=
  .vObj [("operation", .vStr "findOne"), ("success", .vBool true),
    ("data", findOneNullInner), ("document", findOneNullInner)]

/-! ### Helper lemmas: a handler whose local validation fails issues no
client call -/

lemma handleInsertOne_fst (client : Client) (it : ExecItem)
    (h : localValidationOk "insertOne" it = false) :
    (handleInsertOne client it).fst = [] := by
  simp only [localValidationOk] at h
  unfold handleInsertOne
  cases hd : jsonParse it.document with
  | error e => simp
  | ok d => rw [hd] at h; simp [parsedOk] at h

lemma handleInsertMany_fst (client : Client) (it : ExecItem)
    (h : localValidationOk "insertMany" it = false) :
    (handleInsertMany client it).fst = [] := by
  simp only [localValidationOk] at h
  unfold handleInsertMany
  cases hd : jsonParse it.documents with
  | error e => simp
  | ok d =>
    rw [hd] at h
    cases ho : parseAstraOptions it.options with
    | error e => simp [ho]
    | ok o => rw [ho] at h; simp [parsedOk] at h

lemma handleFindMany_fst (client : Client) (it : ExecItem)
    (h : localValidationOk "findMany" it = false) :
    (handleFindMany client it).fst = [] := by
  simp only [localValidationOk] at h
  unfold handleFindMany
  cases hf : jsonParse it.filter with
  | error e => simp
  | ok filter =>
    rw [hf] at h
    cases ho : parseAstraOptions it.options with
    | error e => simp [ho]
    | ok options =>
      rw [ho] at h
      simp only [parsedOk, Bool.true_and] at h
      simp [h]

lemma handleFindOne_fst (client : Client) (it : ExecItem)
    (h : localValidationOk "findOne" it = false) :
    (handleFindOne client it).fst = [] := by
  simp only [localValidationOk] at h
  unfold handleFindOne
  cases hf : jsonParse it.filter with
  | error e => simp
  | ok filter =>
    rw [hf] at h
    cases ho : parseAstraOptions it.options with
    | error e => simp [ho]
    | ok options =>
      rw [ho] at h
      simp only [parsedOk, Bool.true_and] at h
      simp [h]

lemma handleUpdateMany_fst (client : Client) (it : ExecItem)
    (h : localValidationOk "updateMany" it = false) :
    (handleUpdateMany client it).fst = [] := by
  simp only [localValidationOk] at h
  unfold handleUpdateMany
  cases hf : jsonParse it.filter with
  | error e => simp
  | ok filter =>
    cases hu : jsonParse it.update with
    | error e => simp [hu]
    | ok update =>
      rw [hf, hu] at h
      cases ho : parseAstraOptions it.options with
      | error e => simp [ho]
      | ok options =>
        rw [ho] at h
        simp only [parsedOk, Bool.true_and, Bool.and_eq_false_iff] at h
        rcases h with h | h
        · simp [h]
        · cases hfv : (validateQuery filter "filter").isValid <;> simp [hfv, h]

lemma handleDelete_fst (client : Client) (it : ExecItem)
    (h : localValidationOk "delete" it = false) :
    (handleDelete client it).fst = [] := by
  simp only [localValidationOk] at h
  unfold handleDelete
  cases hf : jsonParse it.filter with
  | error e => simp
  | ok filter =>
    rw [hf] at h
    simp at h
    simp [h]

lemma handleFindAndUpdate_fst (client : Client) (it : ExecItem)
    (h : localValidationOk "findAndUpdate" it = false) :
    (handleFindAndUpdate client it).fst = [] := by
  simp only [localValidationOk] at h
  unfold handleFindAndUpdate
  cases hf : jsonParse it.filter with
  | error e => simp
  | ok filter =>
    cases hu : jsonParse it.update with
    | error e => simp [hu]
    | ok update =>
      rw [hf, hu] at h
      cases ho : parseAstraOptions it.options with
      | error e => simp [ho]
      | ok options =>
        rw [ho] at h
        simp only [parsedOk, Bool.true_and, Bool.and_eq_false_iff] at h
        rcases h with h | h
        · simp [h]
        · cases hfv : (validateQuery filter "filter").isValid <;> simp [hfv, h]

lemma handleFindAndReplace_fst (client : Client) (it : ExecItem)
    (h : localValidationOk "findAndReplace" it = false) :
    (handleFindAndReplace client it).fst = [] := by
  simp only [localValidationOk] at h
  unfold handleFindAndReplace
  cases hf : jsonParse it.filter with
  | error e => simp
  | ok filter =>
    cases hr : jsonParse it.replacement with
    | error e => simp [hr]
    | ok replacement =>
      rw [hf, hr] at h
      cases ho : parseAstraOptions it.options with
      | error e => simp [ho]
      | ok options =>
        rw [ho] at h
        simp only [parsedOk, Bool.true_and, Bool.and_eq_false_iff] at h
        rcases h with h | h
        · simp [h]
        · cases hfv : (validateQuery filter "filter").isValid <;> simp [hfv, h]

lemma handleFindAndDelete_fst (client : Client) (it : ExecItem)
    (h : localValidationOk "findAndDelete" it = false) :
    (handleFindAndDelete client it).fst = [] := by
  simp only [localValidationOk] at h
  unfold handleFindAndDelete
  cases hf : jsonParse it.filter with
  | error e => simp
  | ok filter =>
    rw [hf] at h
    cases ho : parseAstraOptions it.options with
    | error e => simp [ho]
    | ok options =>
      rw [ho] at h
      simp only [parsedOk, Bool.true_and] at h
      simp [h]

lemma handleEstimatedDocumentCount_fst (client : Client) (it : ExecItem)
    (h : localValidationOk "estimatedDocumentCount" it = false) :
    (handleEstimatedDocumentCount client it).fst = [] := by
  simp only [localValidationOk] at h
  unfold handleEstimatedDocumentCount
  cases ho : parseAstraOptions it.options with
  | error e => simp
  | ok o => rw [ho] at h; simp [parsedOk] at h

/-! ### Helper lemmas for the findOne/null execution -/

lemma itemOutcome_findOne_null (client : Client)
    (hclient : ∀ f o, client (ClientCall.findOne f o) = .ok .vNull)
    (it : ExecItem) (hval : localValidationOk "findOne" it = true) (pi : PairedItem) :
    itemOutcome client "findOne" pi it = .ok [⟨findOneNullJson, pi⟩] := by
  simp only [localValidationOk] at hval
  unfold itemOutcome processItem handleFindOne
  cases hf : jsonParse it.filter with
  | error e => rw [hf] at hval; simp at hval
  | ok filter =>
    rw [hf] at hval
    cases ho : parseAstraOptions it.options with
    | error e => rw [ho] at hval; simp [parsedOk] at hval
    | ok options =>
      rw [ho] at hval
      simp only [parsedOk, Bool.true_and] at hval
      simp [hval, findOneDocument, wrapCall, hclient, successOutputs,
        findOneNullJson, findOneNullInner, formatAstraResponse, setProp, setFields,
        truthy, getProp, lookupField]

lemma executeItems_findOne_null (client : Client)
    (hclient : ∀ f o, client (ClientCall.findOne f o) = .ok .vNull)
    (items : List ExecItem) (hval : ∀ it ∈ items, localValidationOk "findOne" it = true)
    (fb : List PairedItem) (i : Nat) :
    executeItems false client "findOne" fb items i =
      .ok ((List.range items.length).map
        fun j => ⟨findOneNullJson, fb.getD (i + j) ⟨0, 0⟩⟩) := by
  induction items generalizing i with
  | nil => simp [executeItems]
  | cons it rest ih =>
    have hit := itemOutcome_findOne_null client hclient it (hval it (by simp)) (fb.getD i ⟨0, 0⟩)
    have htail := ih (fun x hx => hval x (by simp [hx])) (i + 1)
    simp only [executeItems, hit, htail, Except.map]
    congr 1
    simp only [List.length_cons]
    rw [List.range_succ_eq_map]
    simp only [List.map_cons, List.map_map, Function.comp, Nat.add_zero]
    simp only [List.singleton_append, List.cons.injEq, true_and]
    apply List.map_congr_left
    intro j hj
    simp only [Function.comp_apply]
    congr 2
    omega

lemma generatePairedItemData_getD (n j : Nat) (h : j < n) :
    (generatePairedItemData n 0).getD j ⟨0, 0⟩ = ⟨j, 0⟩ := by
  unfold generatePairedItemData
  rw [List.getD_eq_getElem?_getD, List.getElem?_map, List.getElem?_range h]
  rfl

/-! ### Claim theorems -/

/-- C1: the claim that a `findMany` operation fans out into one output
record per document is false on the code: the handler's result is the
`findDocuments` envelope `{operation, success, data}`, which has no
`documents` key and is not an array, so the fan-out branch is dead.  For
a client returning two documents, `execute` emits exactly one record
(the sanitized envelope), not two. -/
theorem c1_findMany_emits_single_record :
    execute false twoDocsClient "findMany" "ks" "col" [defaultItem] =
      .ok [⟨twoDocsEnvelope, ⟨0, 0⟩⟩] ∧
    (execute false twoDocsClient "findMany" "ks" "col" [defaultItem]).map
      List.length = .ok 1 :=
  ⟨rfl, rfl⟩

/-- C2: when processing of an item fails: with continue-on-fail the loop
emits exactly one `{error: message}` record paired to that item and
processes the remaining items unchanged; without continue-on-fail the
failure propagates out of `execute` and no output records are
produced. -/
theorem c2_per_item_failure_dispatch (client : Client) (operation ks col : String)
    (fb : List PairedItem) (i : Nat) (it : ExecItem) (rest : List ExecItem) (e : String)
    (hks : validateKeyspaceCollectionName ks "keyspace" = .ok ())
    (hcol : validateKeyspaceCollectionName col "collection" = .ok ())
    (hfail : ∀ pi : PairedItem, itemOutcome client operation pi it = .error e) :
    (executeItems true client operation fb (it :: rest) i =
      (executeItems true client operation fb rest (i + 1)).map
        (fun tail => ⟨.vObj [("error", .vStr e)], fb.getD i ⟨0, 0⟩⟩ :: tail)) ∧
    (executeItems false client operation fb (it :: rest) i = .error e) ∧
    (execute false client operation ks col (it :: rest) = .error e) := by
  refine ⟨?_, ?_, ?_⟩
  · simp [executeItems, hfail]
  · simp [executeItems, hfail]
  · simp [execute, hks, hcol, executeItems, hfail]

/-- Witness for C2 at a concrete input: an item whose `filter` parameter
is the JSON text `null` fails validation; with continue-on-fail one
error record is emitted and the next item is still processed, without it
the failure propagates. -/
theorem c2_per_item_failure_dispatch_witness :
    (executeItems true cofClient "findOne" [⟨0, 0⟩, ⟨1, 0⟩]
        (badFilterItem :: [defaultItem]) 0 =
      (executeItems true cofClient "findOne" [⟨0, 0⟩, ⟨1, 0⟩] [defaultItem] 1).map
        (fun tail =>
          ⟨.vObj [("error", .vStr badFilterMsg)],
            ([⟨0, 0⟩, ⟨1, 0⟩] : List PairedItem).getD 0 ⟨0, 0⟩⟩ :: tail)) ∧
    (executeItems false cofClient "findOne" [⟨0, 0⟩, ⟨1, 0⟩]
        (badFilterItem :: [defaultItem]) 0 = .error badFilterMsg) ∧
    (execute false cofClient "findOne" "ks" "col" (badFilterItem :: [defaultItem]) =
      .error badFilterMsg) :=
  c2_per_item_failure_dispatch cofClient "findOne" "ks" "col" [⟨0, 0⟩, ⟨1, 0⟩] 0
    badFilterItem [defaultItem] badFilterMsg rfl rfl (fun _ => rfl)

/-- C3: for every client, operation and input item, if any local
validation step for that item fails (JSON parameter parsing, option
parsing, or query validation), the handler issues no database-client
call at all. -/
theorem c3_validation_failure_issues_no_client_call (client : Client)
    (operation : String) (it : ExecItem)
    (h : localValidationOk operation it = false) :
    (processItem client operation it).fst = [] := by
  unfold processItem
  split
  · exact handleInsertOne_fst client it h
  · exact handleInsertMany_fst client it h
  · exact handleFindMany_fst client it h
  · exact handleFindOne_fst client it h
  · exact handleUpdateMany_fst client it h
  · exact handleDelete_fst client it h
  · exact handleFindAndUpdate_fst client it h
  · exact handleFindAndReplace_fst client it h
  · exact handleFindAndDelete_fst client it h
  · exact handleEstimatedDocumentCount_fst client it h
  · rfl

/-- Witness for C3 at a concrete input: the `null` filter fails
validation for `findMany` and the trace of issued client calls is
empty. -/
theorem c3_validation_failure_issues_no_client_call_witness :
    localValidationOk "findMany" badFilterItem = false ∧
    (processItem cofClient "findMany" badFilterItem).fst = [] :=
  ⟨rfl, c3_validation_failure_issues_no_client_call cofClient "findMany" badFilterItem rfl⟩

/-- C4 counterexample: with the client's `findOne` returning `null` and
continue-on-fail off, `execute` emits one record per item paired
correctly and throws nothing — but the record body is the double-wrapped
`findOne` envelope, not the empty object `{}` the claim states. -/
theorem c4_findOne_empty_body_counterexample :
    execute false nullFindOneClient "findOne" "ks" "col" [defaultItem] =
      .ok [⟨findOneNullJson, ⟨0, 0⟩⟩] ∧ findOneNullJson ≠ .vObj [] :=
  ⟨rfl, by simp [findOneNullJson]⟩

/-- C4 (amended): for every execution whose items all request `findOne`
with locally valid parameters and whose client resolves `findOne` to
`null`, `execute` with continue-on-fail off emits exactly one record per
input item, paired to its originating item, with no error thrown; each
record's body is `formatAstraResponse` applied twice to `null` (the
envelope `{operation: 'findOne', success: true, data: e, document: e}`
around the inner envelope `e`), not `{}`. -/
theorem c4_findOne_null_records_amended (client : Client) (ks col : String)
    (items : List ExecItem)
    (hks : validateKeyspaceCollectionName ks "keyspace" = .ok ())
    (hcol : validateKeyspaceCollectionName col "collection" = .ok ())
    (hclient : ∀ f o, client (ClientCall.findOne f o) = .ok .vNull)
    (hval : ∀ it ∈ items, localValidationOk "findOne" it = true) :
    execute false client "findOne" ks col items =
      .ok ((List.range items.length).map fun i => ⟨findOneNullJson, ⟨i, 0⟩⟩) := by
  simp only [execute, hks, hcol]
  rw [executeItems_findOne_null client hclient items hval]
  dsimp only
  congr 1
  apply List.map_congr_left
  intro j hj
  have hjn : j < items.length := List.mem_range.mp hj
  congr 1
  rw [Nat.zero_add]
  exact generatePairedItemData_getD items.length j hjn

/-- Witness for C4 (amended) at a concrete input: three default items,
client `findOne` resolving `null`. -/
theorem c4_findOne_null_records_amended_witness :
    execute false nullFindOneClient "findOne" "ks" "col"
        [defaultItem, defaultItem, defaultItem] =
      .ok ((List.range 3).map fun i => ⟨findOneNullJson, ⟨i, 0⟩⟩) :=
  c4_findOne_null_records_amended nullFindOneClient "ks" "col"
    [defaultItem, defaultItem, defaultItem] rfl rfl (fun _ _ => rfl)
    (by intro it hmem; fin_cases hmem <;> rfl)

/-- C5: the claim that `parseAstraOptions` rejects `limit` outside 1–1000
and sort values other than ±1 is false on the code (the repository's own
test suite expects both rejections): `{limit: 2000}` and
`{sort: {name: 2}}` are both accepted unchanged. -/
theorem c5_parseOptions_accepts_out_of_range :
    parseAstraOptions (.vObj [("limit", .vNum 2000)]) =
      .ok (.vObj [("limit", .vNum 2000)]) ∧
    parseAstraOptions (.vObj [("sort", .vObj [("name", .vNum 2)])]) =
      .ok (.vObj [("sort", .vObj [("name", .vNum 2)])]) :=
  ⟨rfl, rfl⟩

/-- C6: the claim that `validateQuery` rejects unsafe operator keys and
returns a `warnings` array is false on the code (the repository's own
test suite expects both): `{$where: ...}` is accepted as valid with no
errors, `{}` is valid with no warning information (the result shape has
only `isValid` and `errors`), while the null and array rejections do
hold. -/
theorem c6_validateQuery_accepts_unsafe_operator :
    validateQuery (.vObj [("$where", .vStr "malicious code")]) "query" =
      ⟨true, []⟩ ∧
    validateQuery (.vObj []) "filter" = ⟨true, []⟩ ∧
    validateQuery .vNull "query" = ⟨false, ["query cannot be null or undefined"]⟩ ∧
    validateQuery (.vArr []) "query" = ⟨false, ["query cannot be an array"]⟩ :=
  ⟨rfl, rfl, rfl, rfl⟩

/-- C7: the claim (and the repository's own test) that
`formatAstraResponse({insertedId: '123', acknowledged: true},
'insertOne')` has exactly the four fields `{operation, success,
insertedId, acknowledged}` is false on the code: the envelope always
carries a fifth `data` field holding the raw result. -/
theorem c7_formatResponse_includes_data_field :
    formatAstraResponse
        (.vObj [("insertedId", .vStr "123"), ("acknowledged", .vBool true)])
        "insertOne" =
      .ok (.vObj [("operation", .vStr "insertOne"), ("success", .vBool true),
        ("data", .vObj [("insertedId", .vStr "123"), ("acknowledged", .vBool true)]),
        ("insertedId", .vStr "123"), ("acknowledged", .vBool true)]) ∧
    (.vObj [("operation", .vStr "insertOne"), ("success", .vBool true),
        ("data", .vObj [("insertedId", .vStr "123"), ("acknowledged", .vBool true)]),
        ("insertedId", .vStr "123"), ("acknowledged", .vBool true)] : JValue) ≠
      .vObj [("operation", .vStr "insertOne"), ("success", .vBool true),
        ("insertedId", .vStr "123"), ("acknowledged", .vBool true)] :=
  ⟨rfl, by simp⟩

/-- C8: the regular-expression part of the identifier claim holds (empty
names, digit-initial names and names containing `-` fail), but the
reserved-word part is false on the code (the repository's own test
expects `system` to be rejected): `system` passes the validator. -/
theorem c8_identifier_validator_accepts_reserved_word :
    validateKeyspaceCollectionName "system" "collection" = .ok () ∧
    validateKeyspaceCollectionName "" "collection" =
      .error "Astra DB collection name is required" ∧
    validateKeyspaceCollectionName "9abc" "collection" =
      .error "Invalid collection name. Must start with a letter and contain only letters, numbers, and underscores" ∧
    validateKeyspaceCollectionName "invalid-name" "collection" =
      .error "Invalid collection name. Must start with a letter and contain only letters, numbers, and underscores" :=
  ⟨rfl, rfl, rfl, rfl⟩

/-- C9: the claim that the sanitizer strips angle-bracket/script-tag
substrings recursively is false on the code (the repository's own test
suite expects the stripping): objects pass through unchanged with markup
intact, and primitives/arrays are merely wrapped in `{data}`. -/
theorem c9_sanitizeInput_preserves_markup :
    sanitizeInput (.vObj [("name", .vStr "test<script>"), ("value", .vStr "normal")]) =
      .vObj [("name", .vStr "test<script>"), ("value", .vStr "normal")] ∧
    sanitizeInput (.vStr "test<script>alert</script>") =
      .vObj [("data", .vStr "test<script>alert</script>")] ∧
    sanitizeInput (.vArr [.vStr "test<script>"]) =
      .vObj [("data", .vArr [.vStr "test<script>"])] :=
  ⟨rfl, rfl, rfl⟩

/-- C10 counterexample: `formatAstraResponse(null, 'insertOne')` does not
return an envelope at all — the operation-specific field copy reads a
property off `null` and throws — so the claim quantified over every raw
result including `null` is false. -/
theorem c10_format_throws_on_null_counterexample :
    formatAstraResponse .vNull "insertOne" =
      .error "TypeError: Cannot read properties of null" :=
  rfl

/-- C10 (amended): whenever `formatAstraResponse` returns an envelope,
that envelope's `operation` field equals the operation tag and its
`success` field equals `true` — the formatter never constructs an
envelope reporting failure.  (It can, however, throw: see the
counterexample.) -/
theorem c10_format_success_always_true (result : JValue) (operation : String)
    (env : JValue) (h : formatAstraResponse result operation = .ok env) :
    objGet env "operation" = .vStr operation ∧ objGet env "success" = .vBool true := by
  simp only [formatAstraResponse] at h
  split at h
  · cases h1 : getProp result "insertedId" with
    | error e => rw [h1] at h; simp at h
    | ok iid =>
      cases h2 : getProp result "acknowledged" with
      | error e => rw [h1, h2] at h; simp at h
      | ok ack =>
        rw [h1, h2] at h; simp at h; rw [← h]
        constructor <;> simp [objGet, setProp, setFields, lookupField]
  · cases h1 : getProp result "insertedIds" with
    | error e => rw [h1] at h; simp at h
    | ok iids =>
      cases h2 : getProp result "insertedCount" with
      | error e => rw [h1, h2] at h; simp at h
      | ok cnt =>
        cases h3 : getProp result "acknowledged" with
        | error e => rw [h1, h2, h3] at h; simp at h
        | ok ack =>
          rw [h1, h2, h3] at h; simp at h; rw [← h]
          constructor <;> simp [objGet, setProp, setFields, lookupField]
  · cases h1 : getProp result "matchedCount" with
    | error e => rw [h1] at h; simp at h
    | ok mat =>
      cases h2 : getProp result "modifiedCount" with
      | error e => rw [h1, h2] at h; simp at h
      | ok mods =>
        cases h3 : getProp result "acknowledged" with
        | error e => rw [h1, h2, h3] at h; simp at h
        | ok ack =>
          rw [h1, h2, h3] at h; simp at h; rw [← h]
          constructor <;> simp [objGet, setProp, setFields, lookupField]
  · cases h1 : getProp result "deletedCount" with
    | error e => rw [h1] at h; simp at h
    | ok del =>
      cases h2 : getProp result "acknowledged" with
      | error e => rw [h1, h2] at h; simp at h
      | ok ack =>
        rw [h1, h2] at h; simp at h; rw [← h]
        constructor <;> simp [objGet, setProp, setFields, lookupField]
  all_goals
    simp at h
    rw [← h]
    constructor <;> simp [objGet, setProp, setFields, lookupField]

/-- Witness for C10 (amended) at a concrete input: the `findOne` envelope
of a `null` result. -/
theorem c10_format_success_always_true_witness :
    objGet findOneNullInner "operation" = .vStr "findOne" ∧
    objGet findOneNullInner "success" = .vBool true :=
  c10_format_success_always_true .vNull "findOne" findOneNullInner rfl

end AstraDb
